import Mathlib

/-!
Verification development for the `py-positioning-stuff` GPS utilities.

The Python modules `nmea_validator.py`, `gps_data_model.py`,
`gps_network_resilience.py` and `coordinates.py` are embedded shallowly:

* Python strings become `List Char`; `str.split`, slicing and `str.upper`
  are mirrored by executable functions below.
* Python floats are modelled as exact rationals (`ℚ`).  The transcendental
  Haversine distance of `GPSPosition.distance_to` is kept as an explicit
  function parameter `dist`, since none of the verified properties depend
  on its values.
* Mutable objects (the `GPSPosition` instances that `GPSDataModel`
  updates in place) live in an explicit heap: a `GPSPosition` reference is
  an index into a `List GPSPosition`, and the deque `_positions` stores
  references, exactly as CPython stores object pointers.
-/

/-! ## String and digit helpers (Python `str` operations) -/

/-- Decimal digit character, as produced by Python `"%d"` formatting. -/
def decDigit (n : Nat) : Char := Char.ofNat (48 + n % 10)

/-- Fuel-driven accumulator loop producing the decimal digits of `n`. -/
def natDecAux : Nat → Nat → List Char → List Char
  | 0, _, acc => acc
  | fuel + 1, n, acc =>
    if n < 10 then decDigit n :: acc
    else natDecAux fuel (n / 10) (decDigit n :: acc)

/-- Decimal representation of a natural number (`str(n)` in Python). -/
def natToDec (n : Nat) : List Char := natDecAux (n + 1) n []

/-- Uppercase hexadecimal digit character, as produced by Python `"%X"`. -/
def hexDigit (n : Nat) : Char :=
  if n % 16 < 10 then Char.ofNat (48 + n % 16) else Char.ofNat (55 + n % 16)

/-- Fuel-driven accumulator loop producing the hexadecimal digits of `n`. -/
def natHexAux : Nat → Nat → List Char → List Char
  | 0, _, acc => acc
  | fuel + 1, n, acc =>
    if n < 16 then hexDigit n :: acc
    else natHexAux fuel (n / 16) (hexDigit n :: acc)

/-- Uppercase hexadecimal representation of a natural number (`"%X" % n`). -/
def natToHex (n : Nat) : List Char := natHexAux (n + 1) n []

/-- Left zero-padding to width `w`, as in Python `"%0Nd"` formatting. -/
def padZero (w : Nat) (l : List Char) : List Char :=
  List.replicate (w - l.length) '0' ++ l

/-- Python `str.split(sep)`: every occurrence of `sep` separates two chunks,
`"".split(sep)` is `[""]`, and separators are never merged. -/
def pysplit (sep : Char) : List Char → List (List Char)
  | [] => [[]]
  | c :: rest =>
    match pysplit sep rest with
    | [] => [[]]
    | s :: ss => if c = sep then [] :: s :: ss else (c :: s) :: ss

/-! ## `nmea_validator.py`: class `NMEAValidator` -/

namespace NMEAValidator

/-- The six `SUPPORTED_SENTENCES` of `NMEAValidator`. -/
def SUPPORTED_SENTENCES : List (List Char) :=
  ["GPRMC".toList, "GPGGA".toList, "GPGLL".toList,
   "GPGSA".toList, "GPGSV".toList, "GPVTG".toList]

/-- `NMEAValidator.calculate_checksum`: XOR of the character codes, as a
number (the Python function then renders it with `"%02X"`). -/
def calculate_checksum (sentence : List Char) : Nat :=
  sentence.foldl (fun a c => a ^^^ c.toNat) 0

/-- The two-or-more uppercase hex characters `f"{checksum:02X}"` that
`calculate_checksum` returns. -/
def checksum_string (sentence : List Char) : List Char :=
  padZero 2 (natToHex (calculate_checksum sentence))

/-- `NMEAValidator.validate_checksum`: reject when `*` is absent, split on
`*` (a `ValueError` from unpacking anything but two parts yields `False`),
strip a leading `$`, and compare checksums case-insensitively. -/
def validate_checksum (nmea_string : List Char) : Bool :=
  if '*' ∈ nmea_string then
    match pysplit '*' nmea_string with
    | [sentence0, provided_checksum] =>
      let sentence := if sentence0.head? = some '$' then sentence0.drop 1 else sentence0
      decide ((checksum_string sentence).map Char.toUpper
               = provided_checksum.map Char.toUpper)
    | _ => false
  else false

/-- `NMEAValidator.get_sentence_type`: for a string starting with `$`,
return `nmea_string[1:7].upper()` (six characters), else `None`. -/
def get_sentence_type (nmea_string : List Char) : Option (List Char) :=
  if nmea_string.head? = some '$' then
    some (((nmea_string.drop 1).take 6).map Char.toUpper)
  else none

/-- `NMEAValidator.is_supported_sentence`: membership of the extracted
sentence type in `SUPPORTED_SENTENCES` (`None` is never a member). -/
def is_supported_sentence (nmea_string : List Char) : Bool :=
  match get_sentence_type nmea_string with
  | some t => decide (t ∈ SUPPORTED_SENTENCES)
  | none => false

end NMEAValidator

/-- C1: for the well-formed supported sentence used by the repository's own
test `test_sentence_type_extraction`, `get_sentence_type` does not return
the five type characters `GPRMC`: the slice `nmea_string[1:7]` keeps six
characters including the field comma, so it returns `"GPRMC,"` and
`is_supported_sentence` is `False` on every comma-delimited sentence.  The
claim (and the repository's test, which asserts `"GPRMC"`) states the
opposite, so the code, not the claim, is at fault. -/
theorem C1_sentence_type_keeps_comma :
    NMEAValidator.get_sentence_type
        ("$GPRMC,123456.00,A,4807.404,N,01131.324,E,0.0,0.0,191124,,,A*6C".toList)
      = some ("GPRMC,".toList)
    ∧ NMEAValidator.is_supported_sentence
        ("$GPRMC,123456.00,A,4807.404,N,01131.324,E,0.0,0.0,191124,,,A*6C".toList)
      = false := by
  constructor
  · rfl
  · rfl

/-! ## `nmea_validator.py`: class `NMEAGenerator` -/

/-- The time-of-day fields that `timestamp.strftime("%H%M%S.%f")` reads. -/
structure PyTime where
  hour : Nat
  minute : Nat
  second : Nat
  microsecond : Nat

/-- The date fields that `date.strftime("%d%m%y")` reads. -/
structure PyDate where
  day : Nat
  month : Nat
  year : Nat

/-- Round half to even, the rounding used by Python `%`-formatting of a
numeric value to a fixed number of decimals. -/
def rhe (q : ℚ) : ℤ :=
  let f := ⌊q⌋
  let r := q - (f : ℚ)
  if r < 1/2 then f
  else if (1/2 : ℚ) < r then f + 1
  else if f % 2 = 0 then f else f + 1

/-- Digits of `%.Df` formatting of a nonnegative value: integer part,
decimal point, and exactly `decs` fractional digits. -/
def fmtFixedCore (decs : Nat) (q : ℚ) : List Char :=
  let s := (rhe (q * (10 : ℚ) ^ decs)).toNat
  natToDec (s / 10 ^ decs) ++ '.' :: padZero decs (natToDec (s % 10 ^ decs))

/-- Python `"%0W.Df" % q`: fixed-point formatting with `decs` decimals,
zero-padded to total width `width` (sign first for a negative value). -/
def fmtFixed (decs width : Nat) (q : ℚ) : List Char :=
  if q < 0 then '-' :: padZero (width - 1) (fmtFixedCore decs (-q))
  else padZero width (fmtFixedCore decs q)

namespace NMEAGenerator

/-- Two-digit zero-padded decimal, Python `f"{n:02d}"`. -/
def pad2 (n : Nat) : List Char := padZero 2 (natToDec n)

/-- `timestamp.strftime("%H%M%S.%f")[:9]` of `generate_rmc`: the slice
truncates the six microsecond digits to two. -/
def time_str (t : PyTime) : List Char :=
  (pad2 t.hour ++ pad2 t.minute ++ pad2 t.second
    ++ '.' :: padZero 6 (natToDec t.microsecond)).take 9

/-- `date.strftime("%d%m%y")` of `generate_rmc`. -/
def date_str (d : PyDate) : List Char :=
  pad2 d.day ++ pad2 d.month ++ pad2 (d.year % 100)

/-- `lat_deg = int(abs(latitude))` of `generate_rmc`. -/
def lat_deg (latitude : ℚ) : Nat := (⌊|latitude|⌋).toNat

/-- `lat_min = (abs(latitude) - lat_deg) * 60` of `generate_rmc`. -/
def lat_min (latitude : ℚ) : ℚ := (|latitude| - (lat_deg latitude : ℚ)) * 60

/-- `lat_nmea = f"{lat_deg:02d}{lat_min:07.4f}"` of `generate_rmc`. -/
def lat_nmea (latitude : ℚ) : List Char :=
  padZero 2 (natToDec (lat_deg latitude)) ++ fmtFixed 4 7 (lat_min latitude)

/-- `lat_dir = 'N' if latitude >= 0 else 'S'` of `generate_rmc`. -/
def lat_dir (latitude : ℚ) : Char := if 0 ≤ latitude then 'N' else 'S'

/-- `lon_deg = int(abs(longitude))` of `generate_rmc`. -/
def lon_deg (longitude : ℚ) : Nat := (⌊|longitude|⌋).toNat

/-- `lon_min = (abs(longitude) - lon_deg) * 60` of `generate_rmc`. -/
def lon_min (longitude : ℚ) : ℚ := (|longitude| - (lon_deg longitude : ℚ)) * 60

/-- `lon_nmea = f"{lon_deg:03d}{lon_min:07.4f}"` of `generate_rmc`. -/
def lon_nmea (longitude : ℚ) : List Char :=
  padZero 3 (natToDec (lon_deg longitude)) ++ fmtFixed 4 7 (lon_min longitude)

/-- `lon_dir = 'E' if longitude >= 0 else 'W'` of `generate_rmc`. -/
def lon_dir (longitude : ℚ) : Char := if 0 ≤ longitude then 'E' else 'W'

/-- The sentence body built by `generate_rmc` (without `$` and checksum):
`f"GPRMC,{time_str},A,{lat_nmea},{lat_dir},{lon_nmea},{lon_dir},
{speed:.1f},{course:.1f},{date_str},,A"`. -/
def rmc_body (latitude longitude : ℚ) (t : PyTime) (speed course : ℚ)
    (d : PyDate) : List Char :=
  "GPRMC".toList ++ ',' :: time_str t
    ++ ',' :: 'A'
    :: ',' :: lat_nmea latitude
    ++ ',' :: lat_dir latitude
    :: ',' :: lon_nmea longitude
    ++ ',' :: lon_dir longitude
    :: ',' :: fmtFixed 1 0 speed
    ++ ',' :: fmtFixed 1 0 course
    ++ ',' :: date_str d
    ++ ',' :: ',' :: ['A']

/-- `NMEAGenerator.generate_rmc`: `f"${sentence}*{checksum}"` where
`checksum = NMEAValidator.calculate_checksum(sentence)`. -/
def generate_rmc (latitude longitude : ℚ) (t : PyTime) (speed course : ℚ)
    (d : PyDate) : List Char :=
  '$' :: rmc_body latitude longitude t speed course d
    ++ '*' :: NMEAValidator.checksum_string (rmc_body latitude longitude t speed course d)

end NMEAGenerator

/-! ## Character classes of formatted output -/

/-- Decimal digit characters `0`..`9`. -/
abbrev isDigitChar (c : Char) : Prop := 48 ≤ c.toNat ∧ c.toNat ≤ 57

/-- Uppercase hexadecimal characters `0`..`9`, `A`..`F`. -/
abbrev isHexChar (c : Char) : Prop :=
  (48 ≤ c.toNat ∧ c.toNat ≤ 57) ∨ (65 ≤ c.toNat ∧ c.toNat ≤ 70)

theorem isDigitChar_ofNat (m : Nat) (h : m < 10) :
    isDigitChar (Char.ofNat (48 + m)) := by
  interval_cases m <;> decide

theorem isDigitChar_decDigit (n : Nat) : isDigitChar (decDigit n) :=
  isDigitChar_ofNat _ (Nat.mod_lt _ (by norm_num))

theorem isHexChar_hexDigitAux (m : Nat) (h : m < 16) :
    isHexChar (if m < 10 then Char.ofNat (48 + m) else Char.ofNat (55 + m)) := by
  interval_cases m <;> decide

theorem isHexChar_hexDigit (n : Nat) : isHexChar (hexDigit n) := by
  unfold hexDigit
  exact isHexChar_hexDigitAux _ (Nat.mod_lt _ (by norm_num))

theorem natDecAux_digits :
    ∀ (fuel n : Nat) (acc : List Char), (∀ c ∈ acc, isDigitChar c) →
      ∀ c ∈ natDecAux fuel n acc, isDigitChar c := by
  intro fuel
  induction fuel with
  | zero => intro n acc hacc c hc; exact hacc c hc
  | succ f ih =>
    intro n acc hacc c hc
    simp only [natDecAux] at hc
    by_cases hn : n < 10
    · rw [if_pos hn] at hc
      rcases List.mem_cons.mp hc with h | h
      · exact h ▸ isDigitChar_decDigit n
      · exact hacc c h
    · rw [if_neg hn] at hc
      refine ih (n / 10) (decDigit n :: acc) ?_ c hc
      intro c' hc'
      rcases List.mem_cons.mp hc' with h | h
      · exact h ▸ isDigitChar_decDigit n
      · exact hacc c' h

theorem natToDec_digits (n : Nat) : ∀ c ∈ natToDec n, isDigitChar c :=
  natDecAux_digits _ _ [] (by simp)

theorem natHexAux_hex :
    ∀ (fuel n : Nat) (acc : List Char), (∀ c ∈ acc, isHexChar c) →
      ∀ c ∈ natHexAux fuel n acc, isHexChar c := by
  intro fuel
  induction fuel with
  | zero => intro n acc hacc c hc; exact hacc c hc
  | succ f ih =>
    intro n acc hacc c hc
    simp only [natHexAux] at hc
    by_cases hn : n < 16
    · rw [if_pos hn] at hc
      rcases List.mem_cons.mp hc with h | h
      · exact h ▸ isHexChar_hexDigit n
      · exact hacc c h
    · rw [if_neg hn] at hc
      refine ih (n / 16) (hexDigit n :: acc) ?_ c hc
      intro c' hc'
      rcases List.mem_cons.mp hc' with h | h
      · exact h ▸ isHexChar_hexDigit n
      · exact hacc c' h

theorem natToHex_hex (n : Nat) : ∀ c ∈ natToHex n, isHexChar c :=
  natHexAux_hex _ _ [] (by simp)

theorem mem_padZero {c : Char} {w : Nat} {l : List Char} (h : c ∈ padZero w l) :
    c = '0' ∨ c ∈ l := by
  unfold padZero at h
  rcases List.mem_append.mp h with h | h
  · exact Or.inl (List.eq_of_mem_replicate h)
  · exact Or.inr h

/-- Characters a numeric field of the generated sentence can contain. -/
abbrev isNumChar (c : Char) : Prop := isDigitChar c ∨ c = '.' ∨ c = '-'

theorem fmtFixedCore_chars (decs : Nat) (q : ℚ) :
    ∀ c ∈ fmtFixedCore decs q, isDigitChar c ∨ c = '.' := by
  intro c hc
  unfold fmtFixedCore at hc
  rcases List.mem_append.mp hc with h | h
  · exact Or.inl (natToDec_digits _ c h)
  · rcases List.mem_cons.mp h with h | h
    · exact Or.inr h
    · rcases mem_padZero h with h | h
      · exact Or.inl (h ▸ by decide)
      · exact Or.inl (natToDec_digits _ c h)

theorem fmtFixed_chars (decs width : Nat) (q : ℚ) :
    ∀ c ∈ fmtFixed decs width q, isNumChar c := by
  intro c hc
  unfold fmtFixed at hc
  by_cases hq : q < 0
  · rw [if_pos hq] at hc
    rcases List.mem_cons.mp hc with h | h
    · exact Or.inr (Or.inr h)
    · rcases mem_padZero h with h | h
      · exact Or.inl (h ▸ by decide)
      · rcases fmtFixedCore_chars _ _ c h with h | h
        · exact Or.inl h
        · exact Or.inr (Or.inl h)
  · rw [if_neg hq] at hc
    rcases mem_padZero hc with h | h
    · exact Or.inl (h ▸ by decide)
    · rcases fmtFixedCore_chars _ _ c h with h | h
      · exact Or.inl h
      · exact Or.inr (Or.inl h)

theorem pad2_digits (n : Nat) : ∀ c ∈ NMEAGenerator.pad2 n, isDigitChar c := by
  intro c hc
  rcases mem_padZero hc with h | h
  · exact h ▸ by decide
  · exact natToDec_digits _ c h

theorem time_str_chars (t : PyTime) :
    ∀ c ∈ NMEAGenerator.time_str t, isDigitChar c ∨ c = '.' := by
  intro c hc
  unfold NMEAGenerator.time_str at hc
  have hc' := List.mem_of_mem_take hc
  rcases List.mem_append.mp hc' with h | h
  · rcases List.mem_append.mp h with h | h
    · rcases List.mem_append.mp h with h | h
      · exact Or.inl (pad2_digits _ c h)
      · exact Or.inl (pad2_digits _ c h)
    · exact Or.inl (pad2_digits _ c h)
  · rcases List.mem_cons.mp h with h | h
    · exact Or.inr h
    · rcases mem_padZero h with h | h
      · exact Or.inl (h ▸ by decide)
      · exact Or.inl (natToDec_digits _ c h)

theorem date_str_digits (d : PyDate) :
    ∀ c ∈ NMEAGenerator.date_str d, isDigitChar c := by
  intro c hc
  unfold NMEAGenerator.date_str at hc
  rcases List.mem_append.mp hc with h | h
  · rcases List.mem_append.mp h with h | h
    · exact pad2_digits _ c h
    · exact pad2_digits _ c h
  · exact pad2_digits _ c h

theorem lat_nmea_chars (q : ℚ) :
    ∀ c ∈ NMEAGenerator.lat_nmea q, isNumChar c := by
  intro c hc
  unfold NMEAGenerator.lat_nmea at hc
  rcases List.mem_append.mp hc with h | h
  · rcases mem_padZero h with h | h
    · exact Or.inl (h ▸ by decide)
    · exact Or.inl (natToDec_digits _ c h)
  · exact fmtFixed_chars _ _ _ c h

theorem lon_nmea_chars (q : ℚ) :
    ∀ c ∈ NMEAGenerator.lon_nmea q, isNumChar c := by
  intro c hc
  unfold NMEAGenerator.lon_nmea at hc
  rcases List.mem_append.mp hc with h | h
  · rcases mem_padZero h with h | h
    · exact Or.inl (h ▸ by decide)
    · exact Or.inl (natToDec_digits _ c h)
  · exact fmtFixed_chars _ _ _ c h

theorem isDigitChar_ne_star {c : Char} (h : isDigitChar c) : c ≠ '*' := by
  intro he
  subst he
  revert h
  decide

theorem isNumChar_ne_star {c : Char} (h : isNumChar c) : c ≠ '*' := by
  rcases h with h | h | h
  · exact isDigitChar_ne_star h
  · exact h ▸ by decide
  · exact h ▸ by decide

theorem isHexChar_ne_star {c : Char} (h : isHexChar c) : c ≠ '*' := by
  intro he
  subst he
  rcases h with ⟨h1, _⟩ | ⟨h1, _⟩ <;> revert h1 <;> decide

/-! ## Properties of `pysplit` -/

theorem pysplit_ne_nil (sep : Char) (l : List Char) : pysplit sep l ≠ [] := by
  induction l with
  | nil => simp [pysplit]
  | cons c rest ih =>
    simp only [pysplit]
    cases h : pysplit sep rest with
    | nil => simp
    | cons s ss => by_cases hc : c = sep <;> simp [hc]

theorem pysplit_of_not_mem (sep : Char) (l : List Char) (h : sep ∉ l) :
    pysplit sep l = [l] := by
  induction l with
  | nil => rfl
  | cons c rest ih =>
    have hc : c ≠ sep := fun he => h (he ▸ List.mem_cons_self c rest)
    have hrest : sep ∉ rest := fun hm => h (List.mem_cons_of_mem _ hm)
    simp [pysplit, ih hrest, hc]

theorem pysplit_append (sep : Char) (a b : List Char) (ha : sep ∉ a) :
    pysplit sep (a ++ sep :: b) = a :: pysplit sep b := by
  induction a with
  | nil =>
    simp only [List.nil_append, pysplit]
    cases h : pysplit sep b with
    | nil => exact absurd h (pysplit_ne_nil sep b)
    | cons s ss => simp
  | cons c a' ih =>
    have hc : c ≠ sep := fun he => ha (he ▸ List.mem_cons_self c a')
    have ha' : sep ∉ a' := fun hm => ha (List.mem_cons_of_mem _ hm)
    simp only [List.cons_append, pysplit, List.append_eq]
    rw [ih ha']
    simp [hc]

/-! ## No field of the generated sentence contains `*` or `,` -/

theorem isDigitChar_ne_comma {c : Char} (h : isDigitChar c) : c ≠ ',' := by
  intro he
  subst he
  revert h
  decide

theorem isNumChar_ne_comma {c : Char} (h : isNumChar c) : c ≠ ',' := by
  rcases h with h | h | h
  · exact isDigitChar_ne_comma h
  · exact h ▸ by decide
  · exact h ▸ by decide

theorem timeChar_ne_comma {c : Char} (h : isDigitChar c ∨ c = '.') : c ≠ ',' := by
  rcases h with h | h
  · exact isDigitChar_ne_comma h
  · exact h ▸ by decide

theorem timeChar_ne_star {c : Char} (h : isDigitChar c ∨ c = '.') : c ≠ '*' := by
  rcases h with h | h
  · exact isDigitChar_ne_star h
  · exact h ▸ by decide

theorem lat_dir_cases (q : ℚ) :
    NMEAGenerator.lat_dir q = 'N' ∨ NMEAGenerator.lat_dir q = 'S' := by
  unfold NMEAGenerator.lat_dir
  by_cases h : (0 : ℚ) ≤ q
  · exact Or.inl (if_pos h)
  · exact Or.inr (if_neg h)

theorem lon_dir_cases (q : ℚ) :
    NMEAGenerator.lon_dir q = 'E' ∨ NMEAGenerator.lon_dir q = 'W' := by
  unfold NMEAGenerator.lon_dir
  by_cases h : (0 : ℚ) ≤ q
  · exact Or.inl (if_pos h)
  · exact Or.inr (if_neg h)

theorem comma_not_mem_time (t : PyTime) : ',' ∉ NMEAGenerator.time_str t :=
  fun hm => timeChar_ne_comma (time_str_chars t _ hm) rfl

theorem comma_not_mem_date (d : PyDate) : ',' ∉ NMEAGenerator.date_str d :=
  fun hm => isDigitChar_ne_comma (date_str_digits d _ hm) rfl

theorem comma_not_mem_lat_nmea (q : ℚ) : ',' ∉ NMEAGenerator.lat_nmea q :=
  fun hm => isNumChar_ne_comma (lat_nmea_chars q _ hm) rfl

theorem comma_not_mem_lon_nmea (q : ℚ) : ',' ∉ NMEAGenerator.lon_nmea q :=
  fun hm => isNumChar_ne_comma (lon_nmea_chars q _ hm) rfl

theorem comma_not_mem_fmtFixed (decs width : Nat) (q : ℚ) :
    ',' ∉ fmtFixed decs width q :=
  fun hm => isNumChar_ne_comma (fmtFixed_chars decs width q _ hm) rfl

theorem comma_not_mem_lat_dir (q : ℚ) : ',' ∉ [NMEAGenerator.lat_dir q] := by
  rcases lat_dir_cases q with h | h <;> simp [h]

theorem comma_not_mem_lon_dir (q : ℚ) : ',' ∉ [NMEAGenerator.lon_dir q] := by
  rcases lon_dir_cases q with h | h <;> simp [h]

theorem rmc_body_ne_star (latitude longitude : ℚ) (t : PyTime)
    (speed course : ℚ) (d : PyDate) :
    ∀ c ∈ NMEAGenerator.rmc_body latitude longitude t speed course d, c ≠ '*' := by
  intro c hc
  unfold NMEAGenerator.rmc_body at hc
  rcases List.mem_append.mp hc with h | h
  rcases List.mem_append.mp h with h | h
  rcases List.mem_append.mp h with h | h
  rcases List.mem_append.mp h with h | h
  rcases List.mem_append.mp h with h | h
  rcases List.mem_append.mp h with h | h
  rcases List.mem_append.mp h with h | h
  -- c ∈ "GPRMC".toList
  · exact (by decide : ∀ x ∈ "GPRMC".toList, x ≠ '*') c h
  -- c ∈ ',' :: time_str t
  · rcases List.mem_cons.mp h with h | h
    · exact h ▸ by decide
    · exact timeChar_ne_star (time_str_chars t c h)
  -- c ∈ ',' :: 'A' :: ',' :: lat_nmea
  · rcases List.mem_cons.mp h with h | h
    · exact h ▸ by decide
    rcases List.mem_cons.mp h with h | h
    · exact h ▸ by decide
    rcases List.mem_cons.mp h with h | h
    · exact h ▸ by decide
    · exact isNumChar_ne_star (lat_nmea_chars latitude c h)
  -- c ∈ ',' :: lat_dir :: ',' :: lon_nmea
  · rcases List.mem_cons.mp h with h | h
    · exact h ▸ by decide
    rcases List.mem_cons.mp h with h | h
    · rcases lat_dir_cases latitude with hd | hd <;> rw [h, hd] <;> decide
    rcases List.mem_cons.mp h with h | h
    · exact h ▸ by decide
    · exact isNumChar_ne_star (lon_nmea_chars longitude c h)
  -- c ∈ ',' :: lon_dir :: ',' :: fmtFixed speed
  · rcases List.mem_cons.mp h with h | h
    · exact h ▸ by decide
    rcases List.mem_cons.mp h with h | h
    · rcases lon_dir_cases longitude with hd | hd <;> rw [h, hd] <;> decide
    rcases List.mem_cons.mp h with h | h
    · exact h ▸ by decide
    · exact isNumChar_ne_star (fmtFixed_chars 1 0 speed c h)
  -- c ∈ ',' :: fmtFixed course
  · rcases List.mem_cons.mp h with h | h
    · exact h ▸ by decide
    · exact isNumChar_ne_star (fmtFixed_chars 1 0 course c h)
  -- c ∈ ',' :: date_str d
  · rcases List.mem_cons.mp h with h | h
    · exact h ▸ by decide
    · exact isDigitChar_ne_star (date_str_digits d c h)
  -- c ∈ ',' :: ',' :: ['A']
  · exact (by decide : ∀ x ∈ [',', ',', 'A'], x ≠ '*') c h

/-- Checksum validation succeeds on any `$body*CS` string whose body is
free of `*` and whose trailer is the checksum the generator computed. -/
theorem validate_checksum_append (body : List Char)
    (hb : ∀ c ∈ body, c ≠ '*') :
    NMEAValidator.validate_checksum
      ('$' :: body ++ '*' :: NMEAValidator.checksum_string body) = true := by
  have hcs : ∀ c ∈ NMEAValidator.checksum_string body, c ≠ '*' := by
    intro c hc
    rcases mem_padZero hc with h | h
    · exact h ▸ by decide
    · exact isHexChar_ne_star (natToHex_hex _ c h)
  have hnstar1 : '*' ∉ '$' :: body := by
    intro h
    rcases List.mem_cons.mp h with h | h
    · exact absurd h (by decide)
    · exact hb _ h rfl
  have hnstar2 : '*' ∉ NMEAValidator.checksum_string body :=
    fun h => hcs _ h rfl
  have hmem : '*' ∈ '$' :: body ++ '*' :: NMEAValidator.checksum_string body := by
    simp
  have hsplit : pysplit '*' ('$' :: body ++ '*' :: NMEAValidator.checksum_string body)
      = ('$' :: body) :: [NMEAValidator.checksum_string body] := by
    rw [show ('$' :: body ++ '*' :: NMEAValidator.checksum_string body)
          = (('$' :: body) ++ '*' :: NMEAValidator.checksum_string body) from rfl,
        pysplit_append _ _ _ hnstar1, pysplit_of_not_mem _ _ hnstar2]
  unfold NMEAValidator.validate_checksum
  rw [if_pos hmem, hsplit]
  simp

/-- The comma-separated fields of the body built by `generate_rmc`: twelve
fields, with one empty field (not two) between the date and the final `A`. -/
theorem rmc_body_fields (latitude longitude : ℚ) (t : PyTime)
    (speed course : ℚ) (d : PyDate) :
    pysplit ',' (NMEAGenerator.rmc_body latitude longitude t speed course d)
      = ["GPRMC".toList, NMEAGenerator.time_str t, ['A'],
         NMEAGenerator.lat_nmea latitude, [NMEAGenerator.lat_dir latitude],
         NMEAGenerator.lon_nmea longitude, [NMEAGenerator.lon_dir longitude],
         fmtFixed 1 0 speed, fmtFixed 1 0 course, NMEAGenerator.date_str d,
         [], ['A']] := by
  have hbody : NMEAGenerator.rmc_body latitude longitude t speed course d
      = "GPRMC".toList ++ ',' :: (NMEAGenerator.time_str t
          ++ ',' :: (['A']
          ++ ',' :: (NMEAGenerator.lat_nmea latitude
          ++ ',' :: ([NMEAGenerator.lat_dir latitude]
          ++ ',' :: (NMEAGenerator.lon_nmea longitude
          ++ ',' :: ([NMEAGenerator.lon_dir longitude]
          ++ ',' :: (fmtFixed 1 0 speed
          ++ ',' :: (fmtFixed 1 0 course
          ++ ',' :: (NMEAGenerator.date_str d
          ++ ',' :: ',' :: ['A']))))))))) := by
    simp [NMEAGenerator.rmc_body]
  rw [hbody,
      pysplit_append _ _ _ (by decide : ',' ∉ "GPRMC".toList),
      pysplit_append _ _ _ (comma_not_mem_time t),
      pysplit_append _ _ _ (by decide : ',' ∉ ['A']),
      pysplit_append _ _ _ (comma_not_mem_lat_nmea latitude),
      pysplit_append _ _ _ (comma_not_mem_lat_dir latitude),
      pysplit_append _ _ _ (comma_not_mem_lon_nmea longitude),
      pysplit_append _ _ _ (comma_not_mem_lon_dir longitude),
      pysplit_append _ _ _ (comma_not_mem_fmtFixed 1 0 speed),
      pysplit_append _ _ _ (comma_not_mem_fmtFixed 1 0 course),
      pysplit_append _ _ _ (comma_not_mem_date d)]
  rfl

/-- C2 (amended): `generate_rmc` returns `$body*CS` where the body's
comma-separated fields are exactly `GPRMC`, the truncated time string
(at most `hhmmss.ss`, nine characters), `A`, `ddmm.mmmm`, `N|S`,
`dddmm.mmmm`, `E|W`, speed, course, `ddmmyy`, one empty field, and `A`:
twelve fields, so two commas (not three) lie between the date and the
final `A`. -/
theorem C2_rmc_field_layout (latitude longitude : ℚ) (t : PyTime)
    (speed course : ℚ) (d : PyDate) :
    NMEAGenerator.generate_rmc latitude longitude t speed course d
      = '$' :: NMEAGenerator.rmc_body latitude longitude t speed course d
          ++ '*' :: NMEAValidator.checksum_string
              (NMEAGenerator.rmc_body latitude longitude t speed course d)
    ∧ pysplit ',' (NMEAGenerator.rmc_body latitude longitude t speed course d)
      = ["GPRMC".toList, NMEAGenerator.time_str t, ['A'],
         NMEAGenerator.lat_nmea latitude, [NMEAGenerator.lat_dir latitude],
         NMEAGenerator.lon_nmea longitude, [NMEAGenerator.lon_dir longitude],
         fmtFixed 1 0 speed, fmtFixed 1 0 course, NMEAGenerator.date_str d,
         [], ['A']]
    ∧ (NMEAGenerator.time_str t).length ≤ 9 := by
  refine ⟨rfl, rmc_body_fields latitude longitude t speed course d, ?_⟩
  unfold NMEAGenerator.time_str
  rw [List.length_take]
  omega

/-- C2 (counterexample): at a concrete input the generated body has twelve
comma-separated fields, not the thirteen that the claimed layout
`GPRMC,hhmmss.ssssss,A,...,ddmmyy,,,A` requires, and the time field is the
nine characters `123456.00`, not `hhmmss.ssssss`. -/
theorem C2_counterexample :
    (pysplit ',' (NMEAGenerator.rmc_body 48 11 ⟨12, 34, 56, 0⟩ 0 0 ⟨19, 11, 24⟩)).length = 12
    ∧ ¬ (pysplit ',' (NMEAGenerator.rmc_body 48 11 ⟨12, 34, 56, 0⟩ 0 0 ⟨19, 11, 24⟩)).length = 13
    ∧ NMEAGenerator.time_str ⟨12, 34, 56, 0⟩ = "123456.00".toList := by
  have h := rmc_body_fields 48 11 ⟨12, 34, 56, 0⟩ 0 0 ⟨19, 11, 24⟩
  refine ⟨by rw [h]; rfl, by rw [h]; decide, by decide⟩

/-- C3: for latitudes in `[-90, 90]` and longitudes in `[-180, 180]` (and
any time, speed, course and date), the sentence built by `generate_rmc`
passes `validate_checksum`: the appended trailer is the XOR checksum of
the characters strictly between `$` and `*`, rendered in hex. -/
theorem C3_generated_rmc_checksum_valid (latitude longitude : ℚ)
    (t : PyTime) (speed course : ℚ) (d : PyDate)
    (_h1 : -90 ≤ latitude) (_h2 : latitude ≤ 90)
    (_h3 : -180 ≤ longitude) (_h4 : longitude ≤ 180) :
    NMEAValidator.validate_checksum
      (NMEAGenerator.generate_rmc latitude longitude t speed course d) = true :=
  validate_checksum_append _ (rmc_body_ne_star latitude longitude t speed course d)

/-- C3 witness: the checksum round trip at a concrete position. -/
theorem C3_witness :
    NMEAValidator.validate_checksum
      (NMEAGenerator.generate_rmc 48 11 ⟨12, 34, 56, 0⟩ 0 0 ⟨19, 11, 24⟩) = true :=
  C3_generated_rmc_checksum_valid 48 11 ⟨12, 34, 56, 0⟩ 0 0 ⟨19, 11, 24⟩
    (by norm_num) (by norm_num) (by norm_num) (by norm_num)

/-! ## `gps_data_model.py`: dataclass `GPSPosition` and class `GPSDataModel`

CPython's deque stores references to `GPSPosition` objects, and
`add_position` mutates the passed object in place.  The embedding keeps an
explicit heap: a reference is an index into `heap`, and `_positions`
stores references. -/

/-- The fields of the `GPSPosition` dataclass; floats as rationals,
`datetime` timestamps as seconds. -/
structure GPSPosition where
  latitude : ℚ
  longitude : ℚ
  altitude : ℚ
  timestamp : ℚ
  speed : Option ℚ
  course : Option ℚ
  satellites : Option ℤ
  quality : Option ℤ
deriving DecidableEq

/-- Fallback object for `List.getD` heap reads; every theorem that reads
the heap supplies an in-range reference. -/
def posDefault : GPSPosition := ⟨0, 0, 0, 0, none, none, none, none⟩

/-- A reference to a `GPSPosition` object: its index in the heap. -/
abbrev Ref := Nat

/-- Keep the last `c` elements of a list, in order. -/
def lastN (c : Nat) (l : List α) : List α := l.drop (l.length - c)

/-- `collections.deque(maxlen := c).append(x)`: the new element enters on
the right and, beyond capacity, elements fall off the left. -/
def dequeAppend (c : Nat) (l : List α) (x : α) : List α := lastN c (l ++ [x])

/-- The mutable state of a `GPSDataModel` instance.  `observers` holds
opaque callback identities; `_lock` has no observable effect in the
single-threaded semantics embedded here. -/
structure GPSDataModel where
  max_positions : Nat
  heap : List GPSPosition
  positions : List Ref
  observers : List Nat
  total_received : Nat
  total_distance : ℚ
  average_speed : ℚ

/-- `sum(speeds) / len(speeds)` of `add_position`. -/
def listMean (l : List ℚ) : ℚ := l.sum / (l.length : ℚ)

namespace GPSDataModel

/-- `GPSDataModel.__init__(max_positions)` over a pre-existing heap of
caller-owned `GPSPosition` objects. -/
def init (max_positions : Nat) (heap : List GPSPosition) : GPSDataModel :=
  ⟨max_positions, heap, [], [], 0, 0, 0⟩

/-- The tail of `add_position` after the optional in-place speed write:
append the reference to the deque, bump `total_received`, add `dAdd` to
`total_distance`, and recompute `average_speed` over the stored fixes
whenever the (possibly just updated) fix has a speed and the speed list is
nonempty. -/
def finishAdd (s : GPSDataModel) (heap1 : List GPSPosition) (r : Ref)
    (dAdd : ℚ) : GPSDataModel :=
  let positions1 := dequeAppend s.max_positions s.positions r
  let avg :=
    match (heap1.getD r posDefault).speed with
    | none => s.average_speed
    | some _ =>
      let speeds := positions1.filterMap (fun i => (heap1.getD i posDefault).speed)
      if speeds.length = 0 then s.average_speed else listMean speeds
  { s with heap := heap1, positions := positions1,
           total_received := s.total_received + 1,
           total_distance := s.total_distance + dAdd,
           average_speed := avg }

/-- `GPSDataModel.add_position(position)`: `position` is the reference
`r`; `dist` stands for `GPSPosition.distance_to` (the Haversine formula,
kept abstract).  When a previous fix exists, the distance is accumulated
and, for a fix without speed and positive elapsed time, the derived speed
is written into the referenced object itself.  The second component is
the reference `_notify_observers` passes to every observer. -/
def add_position (dist : GPSPosition → GPSPosition → ℚ)
    (s : GPSDataModel) (r : Ref) : GPSDataModel × Ref :=
  match s.positions.getLast? with
  | none => (finishAdd s s.heap r 0, r)
  | some pr =>
    let prev := s.heap.getD pr posDefault
    let pos := s.heap.getD r posDefault
    let d := dist prev pos
    let time_diff := pos.timestamp - prev.timestamp
    let heap1 :=
      if pos.speed = none ∧ 0 < time_diff then
        s.heap.set r { pos with speed := some (d / time_diff) }
      else s.heap
    (finishAdd s heap1 r d, r)

/-- `GPSDataModel.get_positions()` (its `count = None` branch): the stored
objects, dereferenced in order. -/
def get_positions (s : GPSDataModel) : List GPSPosition :=
  s.positions.map (fun i => s.heap.getD i posDefault)

/-- `GPSDataModel.clear()`: empty the deque and reset `total_distance`
and `average_speed`; nothing else is touched. -/
def clear (s : GPSDataModel) : GPSDataModel :=
  { s with positions := [], total_distance := 0, average_speed := 0 }

/-- A sequence of `add_position` calls (the observers' references are
not needed for the stored state). -/
def runAdds (dist : GPSPosition → GPSPosition → ℚ) :
    GPSDataModel → List Ref → GPSDataModel
  | s, [] => s
  | s, r :: rs => runAdds dist (add_position dist s r).1 rs

end GPSDataModel

/-! ## Deque lemmas and claim C4 -/

theorem lastN_length_le (c : Nat) (l : List α) : (lastN c l).length ≤ c := by
  unfold lastN
  rw [List.length_drop]
  omega

theorem lastN_of_length_le (c : Nat) (l : List α) (h : l.length ≤ c) :
    lastN c l = l := by
  unfold lastN
  rw [Nat.sub_eq_zero_of_le h, List.drop_zero]

theorem lastN_append_lastN (c : Nat) (l m : List α) :
    lastN c (lastN c l ++ m) = lastN c (l ++ m) := by
  unfold lastN
  rw [← List.drop_append_of_le_length (Nat.sub_le l.length c), List.drop_drop]
  congr 1
  simp only [List.length_append, List.length_drop]
  omega

theorem dequeAppend_length_le (c : Nat) (l : List α) (x : α) :
    (dequeAppend c l x).length ≤ c :=
  lastN_length_le c (l ++ [x])

theorem dequeAppend_getLast? (c : Nat) (l : List α) (x : α) (hc : 0 < c) :
    (dequeAppend c l x).getLast? = some x := by
  unfold dequeAppend lastN
  have hk : (l ++ [x]).length - c ≤ l.length := by
    rw [List.length_append]
    simp only [List.length_singleton]
    omega
  rw [List.drop_append_of_le_length hk]
  exact List.getLast?_concat _

theorem mem_dequeAppend_self (c : Nat) (l : List α) (x : α) (hc : 0 < c) :
    x ∈ dequeAppend c l x := by
  unfold dequeAppend lastN
  have hk : (l ++ [x]).length - c ≤ l.length := by
    rw [List.length_append]
    simp only [List.length_singleton]
    omega
  rw [List.drop_append_of_le_length hk]
  simp

namespace GPSDataModel

theorem add_position_fst_positions (dist : GPSPosition → GPSPosition → ℚ)
    (s : GPSDataModel) (r : Ref) :
    (add_position dist s r).1.positions = dequeAppend s.max_positions s.positions r
    ∧ (add_position dist s r).1.max_positions = s.max_positions := by
  unfold add_position
  cases s.positions.getLast? <;> simp [finishAdd]

theorem runAdds_positions (dist : GPSPosition → GPSPosition → ℚ) :
    ∀ (rs : List Ref) (s : GPSDataModel), s.positions.length ≤ s.max_positions →
      (runAdds dist s rs).positions = lastN s.max_positions (s.positions ++ rs)
      ∧ (runAdds dist s rs).max_positions = s.max_positions := by
  intro rs
  induction rs with
  | nil =>
    intro s h
    simpa [runAdds] using (lastN_of_length_le _ _ h).symm
  | cons r rs ih =>
    intro s h
    obtain ⟨hpos, hmax⟩ := add_position_fst_positions dist s r
    have hlen : (add_position dist s r).1.positions.length
        ≤ (add_position dist s r).1.max_positions := by
      rw [hpos, hmax]
      exact dequeAppend_length_le _ _ _
    obtain ⟨ih1, ih2⟩ := ih (add_position dist s r).1 hlen
    have hrun : runAdds dist s (r :: rs) = runAdds dist (add_position dist s r).1 rs := rfl
    constructor
    · rw [hrun, ih1, hpos, hmax]
      unfold dequeAppend
      rw [lastN_append_lastN]
      congr 1
      simp
    · rw [hrun, ih2, hmax]

end GPSDataModel

/-- C4: with capacity `c` fixed at construction, no sequence of
`add_position` calls ever leaves more than `c` stored fixes, and once more
than `c` references have been inserted the deque holds exactly the last
`c` inserted references in insertion order; `get_positions` returns those
objects, dereferenced in the same order. -/
theorem C4_capacity_and_retention (dist : GPSPosition → GPSPosition → ℚ)
    (c : Nat) (heap0 : List GPSPosition) (rs : List Ref) :
    ((GPSDataModel.runAdds dist (GPSDataModel.init c heap0) rs).positions).length ≤ c
    ∧ (c < rs.length →
        (GPSDataModel.runAdds dist (GPSDataModel.init c heap0) rs).positions
          = rs.drop (rs.length - c)
        ∧ GPSDataModel.get_positions (GPSDataModel.runAdds dist (GPSDataModel.init c heap0) rs)
          = (rs.drop (rs.length - c)).map
              (fun i => (GPSDataModel.runAdds dist (GPSDataModel.init c heap0) rs).heap.getD i posDefault)) := by
  obtain ⟨hp, hm⟩ := GPSDataModel.runAdds_positions dist rs
    (GPSDataModel.init c heap0) (by simp [GPSDataModel.init])
  have hp' : (GPSDataModel.runAdds dist (GPSDataModel.init c heap0) rs).positions
      = rs.drop (rs.length - c) := by
    rw [hp]
    simp [GPSDataModel.init, lastN]
  refine ⟨?_, fun _ => ⟨hp', ?_⟩⟩
  · rw [hp', List.length_drop]
    omega
  · unfold GPSDataModel.get_positions
    rw [hp']

/-! ## Claim C10: in-place speed mutation by `add_position` -/

theorem getD_set_self (l : List α) (r : Nat) (v d : α) (h : r < l.length) :
    (l.set r v).getD r d = v := by
  simp [List.getD_eq_getElem?_getD, List.getElem?_set_self h]

/-- C10: when the deque is nonempty, the passed fix has no speed and the
elapsed time since the previous fix is positive, `add_position` writes the
derived speed into the very object the caller passed: the heap cell at the
caller's reference now holds speed `dist/elapsed`, the reference appended
to the history is that same reference, and `_notify_observers` receives it
too — caller, history and observers all alias one updated object, not a
copy. -/
theorem C10_add_position_in_place (dist : GPSPosition → GPSPosition → ℚ)
    (s : GPSDataModel) (r pr : Ref)
    (hlast : s.positions.getLast? = some pr)
    (hr : r < s.heap.length)
    (hspeed : (s.heap.getD r posDefault).speed = none)
    (htd : 0 < (s.heap.getD r posDefault).timestamp
             - (s.heap.getD pr posDefault).timestamp)
    (hc : 0 < s.max_positions) :
    ((GPSDataModel.add_position dist s r).1.heap.getD r posDefault).speed
        = some (dist (s.heap.getD pr posDefault) (s.heap.getD r posDefault)
            / ((s.heap.getD r posDefault).timestamp
                - (s.heap.getD pr posDefault).timestamp))
    ∧ (GPSDataModel.add_position dist s r).2 = r
    ∧ (GPSDataModel.add_position dist s r).1.positions.getLast? = some r := by
  unfold GPSDataModel.add_position
  rw [hlast]
  simp only [GPSDataModel.finishAdd]
  rw [if_pos ⟨hspeed, htd⟩]
  refine ⟨?_, by trivial, ?_⟩
  · rw [getD_set_self _ _ _ _ hr]
  · exact dequeAppend_getLast? _ _ _ hc

/-- Heap objects for the concrete C10 scenario: a stored fix at time 0 and
a caller-owned fix at time 2 without a speed. -/
def c10prev : GPSPosition := ⟨0, 0, 0, 0, some 3, none, none, none⟩

/-- The fix the caller passes in the concrete C10 scenario. -/
def c10fix : GPSPosition := ⟨1, 1, 0, 2, none, none, none, none⟩

/-- A model state holding `c10prev` before the C10 call. -/
def c10state : GPSDataModel := ⟨4, [c10prev, c10fix], [0], [], 1, 0, 3⟩

/-- An arbitrary concrete stand-in for the Haversine distance. -/
def c10dist : GPSPosition → GPSPosition → ℚ := fun _ _ => 6

/-- C10 witness: the in-place update at the concrete scenario. -/
theorem C10_witness :
    ((GPSDataModel.add_position c10dist c10state 1).1.heap.getD 1 posDefault).speed
        = some (c10dist (c10state.heap.getD 0 posDefault) (c10state.heap.getD 1 posDefault)
            / ((c10state.heap.getD 1 posDefault).timestamp
                - (c10state.heap.getD 0 posDefault).timestamp))
    ∧ (GPSDataModel.add_position c10dist c10state 1).2 = 1
    ∧ (GPSDataModel.add_position c10dist c10state 1).1.positions.getLast? = some 1 :=
  C10_add_position_in_place c10dist c10state 1 0 rfl (by decide) rfl
    (by show (0 : ℚ) < 2 - 0; norm_num) (by decide)

/-! ## Claim C7: when `average_speed` is recomputed -/

theorem finishAdd_heap (s : GPSDataModel) (heap1 : List GPSPosition)
    (r : Ref) (dAdd : ℚ) : (GPSDataModel.finishAdd s heap1 r dAdd).heap = heap1 := rfl

theorem finishAdd_average_none (s : GPSDataModel) (heap1 : List GPSPosition)
    (r : Ref) (dAdd : ℚ) (h : (heap1.getD r posDefault).speed = none) :
    (GPSDataModel.finishAdd s heap1 r dAdd).average_speed = s.average_speed := by
  simp only [GPSDataModel.finishAdd]
  rw [h]

theorem finishAdd_average_some (s : GPSDataModel) (heap1 : List GPSPosition)
    (r : Ref) (dAdd : ℚ) (v : ℚ)
    (h : (heap1.getD r posDefault).speed = some v) (hc : 0 < s.max_positions) :
    (GPSDataModel.finishAdd s heap1 r dAdd).average_speed
      = listMean ((GPSDataModel.finishAdd s heap1 r dAdd).positions.filterMap
          (fun i => (heap1.getD i posDefault).speed)) := by
  have hvmem : v ∈ (dequeAppend s.max_positions s.positions r).filterMap
      (fun i => (heap1.getD i posDefault).speed) :=
    List.mem_filterMap.mpr ⟨r, mem_dequeAppend_self _ _ _ hc, h⟩
  have hne : ¬ ((dequeAppend s.max_positions s.positions r).filterMap
      (fun i => (heap1.getD i posDefault).speed)).length = 0 := by
    intro h0
    rw [List.length_eq_zero] at h0
    rw [h0] at hvmem
    exact absurd hvmem (List.not_mem_nil v)
  simp only [GPSDataModel.finishAdd]
  rw [h, if_neg hne]

/-- C7 (amended): after `add_position`, `average_speed` equals the mean of
the present speeds over the stored fixes whenever the added fix ends up
with a present speed (given or derived); when the added fix still has no
speed, `average_speed` is left at its previous value — it is not
recomputed, even though eviction or the new speedless fix may have changed
the set of stored fixes. -/
theorem C7_average_speed_update (dist : GPSPosition → GPSPosition → ℚ)
    (s : GPSDataModel) (r : Ref) (hc : 0 < s.max_positions) :
    (((GPSDataModel.add_position dist s r).1.heap.getD r posDefault).speed = none →
      (GPSDataModel.add_position dist s r).1.average_speed = s.average_speed)
    ∧ (∀ v : ℚ,
        ((GPSDataModel.add_position dist s r).1.heap.getD r posDefault).speed = some v →
        (GPSDataModel.add_position dist s r).1.average_speed
          = listMean ((GPSDataModel.add_position dist s r).1.positions.filterMap
              (fun i => ((GPSDataModel.add_position dist s r).1.heap.getD i posDefault).speed))) := by
  obtain ⟨heap1, dAdd, hfin⟩ :
      ∃ h1 dAdd, (GPSDataModel.add_position dist s r).1
        = GPSDataModel.finishAdd s h1 r dAdd := by
    unfold GPSDataModel.add_position
    cases s.positions.getLast? with
    | none => exact ⟨s.heap, 0, rfl⟩
    | some pr => exact ⟨_, _, rfl⟩
  rw [hfin, finishAdd_heap]
  constructor
  · intro h
    exact finishAdd_average_none s heap1 r dAdd h
  · intro v h
    exact finishAdd_average_some s heap1 r dAdd v h hc

/-- C7 witness: the concrete C10 scenario instantiates the amended claim. -/
theorem C7_witness :
    (((GPSDataModel.add_position c10dist c10state 1).1.heap.getD 1 posDefault).speed = none →
      (GPSDataModel.add_position c10dist c10state 1).1.average_speed = c10state.average_speed)
    ∧ (∀ v : ℚ,
        ((GPSDataModel.add_position c10dist c10state 1).1.heap.getD 1 posDefault).speed = some v →
        (GPSDataModel.add_position c10dist c10state 1).1.average_speed
          = listMean ((GPSDataModel.add_position c10dist c10state 1).1.positions.filterMap
              (fun i => ((GPSDataModel.add_position c10dist c10state 1).1.heap.getD i posDefault).speed))) :=
  C7_average_speed_update c10dist c10state 1 (by decide)

/-- Heap objects for the C7 counterexample run: two fixes with speeds 4
and 8, then a speedless fix at the same timestamp as the second. -/
def c7posA : GPSPosition := ⟨0, 0, 0, 0, some 4, none, none, none⟩

/-- Second C7 fix: speed 8 at time 1. -/
def c7posB : GPSPosition := ⟨1, 0, 0, 1, some 8, none, none, none⟩

/-- Third C7 fix: no speed, same timestamp as the second, so no speed is
derived for it. -/
def c7posC : GPSPosition := ⟨2, 0, 0, 1, none, none, none, none⟩

/-- The heap for the C7 counterexample. -/
def c7heap : List GPSPosition := [c7posA, c7posB, c7posC]

/-- An arbitrary concrete stand-in for the Haversine distance. -/
def c7dist : GPSPosition → GPSPosition → ℚ := fun _ _ => 1

/-- Capacity-2 model after adding the three C7 fixes in order. -/
def c7run : GPSDataModel :=
  GPSDataModel.runAdds c7dist (GPSDataModel.init 2 c7heap) [0, 1, 2]

/-- C7 (counterexample): after the third add (capacity 2, so the speed-4
fix was evicted, and the new fix has no speed), `average_speed` is still
6 — the mean of the two previously stored speeds — while the mean over
the present speeds of the currently stored fixes is 8. -/
theorem C7_counterexample :
    c7run.average_speed = 6
    ∧ listMean (c7run.positions.filterMap
        (fun i => (c7run.heap.getD i posDefault).speed)) = 8
    ∧ ¬ c7run.average_speed
        = listMean (c7run.positions.filterMap
            (fun i => (c7run.heap.getD i posDefault).speed)) := by
  have h1 : (GPSDataModel.add_position c7dist (GPSDataModel.init 2 c7heap) 0).1
      = ⟨2, c7heap, [0], [], 1, 0, 4⟩ := by
    simp [GPSDataModel.add_position, GPSDataModel.finishAdd, GPSDataModel.init,
      dequeAppend, lastN, listMean, c7heap, c7posA, c7posB, c7posC, posDefault, c7dist]
  have h2 : (GPSDataModel.add_position c7dist (⟨2, c7heap, [0], [], 1, 0, 4⟩ : GPSDataModel) 1).1
      = ⟨2, c7heap, [0, 1], [], 2, 1, 6⟩ := by
    simp [GPSDataModel.add_position, GPSDataModel.finishAdd,
      dequeAppend, lastN, listMean, c7heap, c7posA, c7posB, c7posC, posDefault, c7dist]
    norm_num
  have h3 : (GPSDataModel.add_position c7dist (⟨2, c7heap, [0, 1], [], 2, 1, 6⟩ : GPSDataModel) 2).1
      = ⟨2, c7heap, [1, 2], [], 3, 2, 6⟩ := by
    simp [GPSDataModel.add_position, GPSDataModel.finishAdd,
      dequeAppend, lastN, listMean, c7heap, c7posA, c7posB, c7posC, posDefault, c7dist]
    norm_num
  have hrun : c7run = ⟨2, c7heap, [1, 2], [], 3, 2, 6⟩ := by
    have e1 : c7run = GPSDataModel.runAdds c7dist
        (GPSDataModel.add_position c7dist (GPSDataModel.init 2 c7heap) 0).1 [1, 2] := rfl
    rw [e1, h1]
    have e2 : GPSDataModel.runAdds c7dist (⟨2, c7heap, [0], [], 1, 0, 4⟩ : GPSDataModel) [1, 2]
        = GPSDataModel.runAdds c7dist
            (GPSDataModel.add_position c7dist (⟨2, c7heap, [0], [], 1, 0, 4⟩ : GPSDataModel) 1).1 [2] := rfl
    rw [e2, h2]
    have e3 : GPSDataModel.runAdds c7dist (⟨2, c7heap, [0, 1], [], 2, 1, 6⟩ : GPSDataModel) [2]
        = GPSDataModel.runAdds c7dist
            (GPSDataModel.add_position c7dist (⟨2, c7heap, [0, 1], [], 2, 1, 6⟩ : GPSDataModel) 2).1 [] := rfl
    rw [e3, h3]
    rfl
  have hm : listMean (([1, 2] : List Ref).filterMap
      (fun i => (c7heap.getD i posDefault).speed)) = 8 := by
    simp [c7heap, c7posA, c7posB, c7posC, posDefault, listMean]
  refine ⟨?_, ?_, ?_⟩
  · rw [hrun]
  · rw [hrun]
    exact hm
  · rw [hrun]
    intro hEq
    exact absurd (hEq.trans hm) (by norm_num : ¬ (6 : ℚ) = 8)

/-! ## Claim C8: what `clear()` resets -/

/-- C8 (amended): `clear()` empties the history and resets
`total_distance` and `average_speed` to their initial zeroes, leaving the
registered observers untouched — but `total_received` (and the heap of
caller-owned objects) keeps its pre-`clear` value; it is not reset. -/
theorem C8_clear_effect (s : GPSDataModel) :
    (GPSDataModel.clear s).positions = []
    ∧ (GPSDataModel.clear s).total_distance = 0
    ∧ (GPSDataModel.clear s).average_speed = 0
    ∧ (GPSDataModel.clear s).observers = s.observers
    ∧ (GPSDataModel.clear s).total_received = s.total_received
    ∧ (GPSDataModel.clear s).max_positions = s.max_positions
    ∧ (GPSDataModel.clear s).heap = s.heap :=
  ⟨rfl, rfl, rfl, rfl, rfl, rfl, rfl⟩

/-- C8 (counterexample): after one `add_position` and a `clear()`,
`total_received` is still 1, not its initial value 0 — the statistics
mapping is not reset in full. -/
theorem C8_counterexample :
    (GPSDataModel.clear
        (GPSDataModel.add_position c7dist (GPSDataModel.init 5 c7heap) 0).1).total_received = 1
    ∧ ¬ (GPSDataModel.clear
        (GPSDataModel.add_position c7dist (GPSDataModel.init 5 c7heap) 0).1).total_received = 0 := by
  constructor
  · rfl
  · intro h
    simp [GPSDataModel.clear, GPSDataModel.add_position, GPSDataModel.finishAdd,
      GPSDataModel.init] at h

/-! ## `gps_network_resilience.py`: retry and circuit breaker -/

/-- `RetryConfig` (delays and base as rationals). -/
structure RetryConfig where
  max_retries : Nat
  initial_delay_ms : ℚ
  max_delay_ms : ℚ
  exponential_base : ℚ
  jitter_enabled : Bool

/-- `CircuitBreakerConfig`. -/
structure CircuitBreakerConfig where
  failure_threshold : Nat
  recovery_timeout_ms : ℚ
  half_open_max_requests : Nat

/-- `CircuitState`. -/
inductive CircuitState where
  | CLOSED
  | OPEN
  | HALF_OPEN
deriving DecidableEq

/-- The mutable counters of a `CircuitBreaker`; `last_failure_time` and
`last_state_change` enter only through the elapsed-time parameter of
`can_attempt`. -/
structure CircuitBreaker where
  state : CircuitState
  failure_count : Nat
  success_count : Nat
deriving DecidableEq

namespace CircuitBreaker

/-- `CircuitBreaker.record_success`: zero the failure count and close a
half-open breaker. -/
def record_success (cb : CircuitBreaker) : CircuitBreaker :=
  { cb with failure_count := 0,
            state := if cb.state = CircuitState.HALF_OPEN
                     then CircuitState.CLOSED else cb.state }

/-- `CircuitBreaker.record_failure`: the failure count always grows, but
only a CLOSED breaker whose count reaches `failure_threshold` trips to
OPEN; any other state is kept. -/
def record_failure (config : CircuitBreakerConfig) (cb : CircuitBreaker) :
    CircuitBreaker :=
  let fc := cb.failure_count + 1
  { cb with failure_count := fc,
            state := if cb.state = CircuitState.CLOSED
                        ∧ config.failure_threshold ≤ fc
                     then CircuitState.OPEN else cb.state }

/-- `CircuitBreaker.can_attempt`: `elapsed_ms` is the wall-clock time
since the last state change; an OPEN breaker whose recovery timeout
expired moves to HALF_OPEN with a cleared failure count. -/
def can_attempt (config : CircuitBreakerConfig) (cb : CircuitBreaker)
    (elapsed_ms : ℚ) : Bool × CircuitBreaker :=
  if cb.state = CircuitState.CLOSED then (true, cb)
  else if cb.state = CircuitState.OPEN then
    if config.recovery_timeout_ms ≤ elapsed_ms then
      (true, { cb with state := CircuitState.HALF_OPEN, failure_count := 0 })
    else (false, cb)
  else (decide (cb.success_count < config.half_open_max_requests), cb)

end CircuitBreaker

/-- C6 (counterexample): a HALF_OPEN breaker with `failure_count = 4` and
threshold 5 records a failure; the count reaches the threshold, yet the
state stays HALF_OPEN — it does not transition to OPEN as the claim says. -/
theorem C6_counterexample :
    (CircuitBreaker.record_failure ⟨5, 30000, 1⟩
        ⟨CircuitState.HALF_OPEN, 4, 0⟩).failure_count = 5
    ∧ 5 ≤ 5
    ∧ (CircuitBreaker.record_failure ⟨5, 30000, 1⟩
        ⟨CircuitState.HALF_OPEN, 4, 0⟩).state = CircuitState.HALF_OPEN
    ∧ ¬ (CircuitBreaker.record_failure ⟨5, 30000, 1⟩
        ⟨CircuitState.HALF_OPEN, 4, 0⟩).state = CircuitState.OPEN := by
  refine ⟨rfl, by omega, rfl, ?_⟩
  intro h
  simp [CircuitBreaker.record_failure] at h

/-- C6 (amended): in the HALF_OPEN state a recorded failure only
increments `failure_count`; the state remains HALF_OPEN whatever the
threshold — `record_failure` can re-open the circuit only from CLOSED. -/
theorem C6_half_open_failure_keeps_state (config : CircuitBreakerConfig)
    (cb : CircuitBreaker) (h : cb.state = CircuitState.HALF_OPEN) :
    (CircuitBreaker.record_failure config cb).state = CircuitState.HALF_OPEN
    ∧ (CircuitBreaker.record_failure config cb).failure_count
        = cb.failure_count + 1 := by
  unfold CircuitBreaker.record_failure
  refine ⟨?_, rfl⟩
  simp [h]

/-- C6 witness: the amended behaviour at the concrete breaker above. -/
theorem C6_witness :
    (CircuitBreaker.record_failure ⟨5, 30000, 1⟩
        ⟨CircuitState.HALF_OPEN, 4, 0⟩).state = CircuitState.HALF_OPEN
    ∧ (CircuitBreaker.record_failure ⟨5, 30000, 1⟩
        ⟨CircuitState.HALF_OPEN, 4, 0⟩).failure_count = 4 + 1 :=
  C6_half_open_failure_keeps_state ⟨5, 30000, 1⟩ ⟨CircuitState.HALF_OPEN, 4, 0⟩ rfl

namespace ResilientNetworkClient

/-- The capped exponential delay of `_calculate_backoff` before jitter:
`min(initial_delay_ms * exponential_base ** attempt, max_delay_ms)`. -/
def backoff_base (config : RetryConfig) (attempt : Nat) : ℚ :=
  min (config.initial_delay_ms * config.exponential_base ^ attempt)
    config.max_delay_ms

/-- `ResilientNetworkClient._calculate_backoff`: the jitter — a
`random.uniform(0, delay * 0.1)` draw — is modelled as the parameter
`jitter` and is added after the cap. -/
def calculate_backoff (config : RetryConfig) (attempt : Nat) (jitter : ℚ) : ℚ :=
  let delay := backoff_base config attempt
  if config.jitter_enabled then delay + jitter else delay

/-- The delays slept by the `for attempt in range(max_retries)` loop of
`execute_with_retry`: `ok a` tells whether attempt `a` succeeds and
`jit a` is the jitter drawn on attempt `a`; a delay is slept after every
failed attempt except the last. The second `Nat` is the remaining
iteration count. -/
def retry_delays (config : RetryConfig) (ok : Nat → Bool) (jit : Nat → ℚ) :
    Nat → Nat → List ℚ
  | _, 0 => []
  | attempt, fuel + 1 =>
    if ok attempt then []
    else if attempt < config.max_retries - 1 then
      calculate_backoff config attempt (jit attempt)
        :: retry_delays config ok jit (attempt + 1) fuel
    else []

/-- All delays slept by one `execute_with_retry` call. -/
def execute_delays (config : RetryConfig) (ok : Nat → Bool) (jit : Nat → ℚ) :
    List ℚ :=
  retry_delays config ok jit 0 config.max_retries

theorem mem_retry_delays (config : RetryConfig) (ok : Nat → Bool)
    (jit : Nat → ℚ) :
    ∀ (fuel attempt : Nat) (delay : ℚ),
      delay ∈ retry_delays config ok jit attempt fuel →
      ∃ a, delay = calculate_backoff config a (jit a) := by
  intro fuel
  induction fuel with
  | zero => intro attempt delay h; exact absurd h (List.not_mem_nil delay)
  | succ f ih =>
    intro attempt delay h
    simp only [retry_delays] at h
    by_cases hok : ok attempt
    · rw [if_pos hok] at h
      exact absurd h (List.not_mem_nil delay)
    · rw [if_neg hok] at h
      by_cases hlt : attempt < config.max_retries - 1
      · rw [if_pos hlt] at h
        rcases List.mem_cons.mp h with h | h
        · exact ⟨attempt, h⟩
        · exact ih (attempt + 1) delay h
      · rw [if_neg hlt] at h
        exact absurd h (List.not_mem_nil delay)

theorem calculate_backoff_le (config : RetryConfig) (a : Nat) (j : ℚ)
    (hj0 : 0 ≤ j) (hj : j ≤ backoff_base config a * (1/10)) :
    calculate_backoff config a j ≤ config.max_delay_ms * (11/10)
    ∧ (config.jitter_enabled = false →
        calculate_backoff config a j ≤ config.max_delay_ms) := by
  have hbase : backoff_base config a ≤ config.max_delay_ms :=
    min_le_right _ _
  have hbase0 : 0 ≤ backoff_base config a := by nlinarith
  have hmax0 : 0 ≤ config.max_delay_ms := le_trans hbase0 hbase
  unfold calculate_backoff
  by_cases hJ : config.jitter_enabled
  · rw [if_pos hJ]
    constructor
    · nlinarith
    · intro hfalse
      rw [hJ] at hfalse
      exact absurd hfalse (by simp)
  · rw [if_neg hJ]
    constructor
    · nlinarith
    · intro _
      exact hbase

end ResilientNetworkClient

/-- C5 (amended): for any retry configuration and any run of
`execute_with_retry`, every slept backoff delay is at most
`max_delay_ms × 1.1` — the uniform jitter of up to 10 percent is added
after the `min(…, max_delay)` cap — and when jitter is disabled every
delay is at most `max_delay_ms`. -/
theorem C5_retry_delay_bound (config : RetryConfig) (ok : Nat → Bool)
    (jit : Nat → ℚ)
    (hjit : ∀ a, 0 ≤ jit a ∧ jit a ≤ ResilientNetworkClient.backoff_base config a * (1/10)) :
    ∀ delay ∈ ResilientNetworkClient.execute_delays config ok jit,
      delay ≤ config.max_delay_ms * (11/10)
      ∧ (config.jitter_enabled = false → delay ≤ config.max_delay_ms) := by
  intro delay hmem
  obtain ⟨a, rfl⟩ := ResilientNetworkClient.mem_retry_delays config ok jit
    config.max_retries 0 delay hmem
  exact ResilientNetworkClient.calculate_backoff_le config a (jit a)
    (hjit a).1 (hjit a).2

/-- Concrete retry configuration for C5: three attempts, initial and
maximum delay both 100 ms, base 1, jitter enabled. -/
def c5cfg : RetryConfig := ⟨3, 100, 100, 1, true⟩

/-- C5 scenario: every attempt fails. -/
def c5fail : Nat → Bool := fun _ => false

/-- C5 scenario: the jitter draw is 10 ms, the top of the allowed
`uniform(0, delay * 0.1)` range for a 100 ms delay. -/
def c5jit : Nat → ℚ := fun _ => 10

theorem c5_backoff_base_eq (a : Nat) :
    ResilientNetworkClient.backoff_base c5cfg a = 100 := by
  simp [ResilientNetworkClient.backoff_base, c5cfg]

theorem c5_jit_valid (a : Nat) :
    0 ≤ c5jit a ∧ c5jit a ≤ ResilientNetworkClient.backoff_base c5cfg a * (1/10) := by
  rw [c5_backoff_base_eq a]
  norm_num [c5jit]

theorem c5_delays_value :
    ResilientNetworkClient.execute_delays c5cfg c5fail c5jit = [110, 110] := by
  have hb : ∀ a, ResilientNetworkClient.calculate_backoff c5cfg a (c5jit a) = 110 := by
    intro a
    unfold ResilientNetworkClient.calculate_backoff
    rw [c5_backoff_base_eq a]
    norm_num [c5cfg, c5jit]
  have hstruct : ResilientNetworkClient.execute_delays c5cfg c5fail c5jit
      = [ResilientNetworkClient.calculate_backoff c5cfg 0 (c5jit 0),
         ResilientNetworkClient.calculate_backoff c5cfg 1 (c5jit 1)] := rfl
  rw [hstruct, hb 0, hb 1]

/-- C5 (counterexample): with jitter enabled, the first retry of an
all-failing run sleeps 110 ms, strictly more than the configured
`max_delay_ms` of 100 ms, under a legal `uniform(0, delay * 0.1)` draw. -/
theorem C5_counterexample :
    (110 : ℚ) ∈ ResilientNetworkClient.execute_delays c5cfg c5fail c5jit
    ∧ c5cfg.max_delay_ms < 110
    ∧ 0 ≤ c5jit 0
    ∧ c5jit 0 ≤ ResilientNetworkClient.backoff_base c5cfg 0 * (1/10)
    ∧ c5cfg.jitter_enabled = true := by
  refine ⟨?_, by norm_num [c5cfg], (c5_jit_valid 0).1, (c5_jit_valid 0).2, rfl⟩
  rw [c5_delays_value]
  simp

/-- C5 witness: the amended bound at the concrete all-failing run. -/
theorem C5_witness :
    (110 : ℚ) ≤ c5cfg.max_delay_ms * (11/10)
    ∧ (c5cfg.jitter_enabled = false → (110 : ℚ) ≤ c5cfg.max_delay_ms) :=
  C5_retry_delay_bound c5cfg c5fail c5jit c5_jit_valid 110
    (by rw [c5_delays_value]; simp)

/-! ## `coordinates.py`: dataclass `Coordinate` -/

/-- The two fields of the `Coordinate` dataclass. -/
structure Coordinate where
  decimal_degrees : ℚ
  hemisphere : Char
deriving DecidableEq

/-- `Coordinate.__post_init__` running `_validate`: `none` stands for a
raised `CoordinateError`.  The ranges are checked on
`abs(decimal_degrees)`. -/
def mkCoordinate (decimal_degrees : ℚ) (hemisphere : Char) : Option Coordinate :=
  let abs_value := |decimal_degrees|
  if hemisphere = 'N' ∨ hemisphere = 'S' then
    if 90 < abs_value then none else some ⟨decimal_degrees, hemisphere⟩
  else if hemisphere = 'E' ∨ hemisphere = 'W' then
    if 180 < abs_value then none else some ⟨decimal_degrees, hemisphere⟩
  else none

/-- C9 (amended): `Coordinate` construction succeeds exactly when the
hemisphere is one of N/S/E/W and the absolute value of `decimal_degrees`
is within 90 (N/S) respectively 180 (E/W); negative `decimal_degrees`
values inside those ranges are accepted, and every constructed coordinate
carries the given fields and satisfies the absolute-value range
invariant. -/
theorem C9_coordinate_validation (dd : ℚ) (hem : Char) :
    ((mkCoordinate dd hem).isSome = true ↔
      ((hem = 'N' ∨ hem = 'S') ∧ |dd| ≤ 90)
        ∨ ((hem = 'E' ∨ hem = 'W') ∧ |dd| ≤ 180))
    ∧ ∀ c, mkCoordinate dd hem = some c →
        c.decimal_degrees = dd ∧ c.hemisphere = hem
        ∧ ((hem = 'N' ∨ hem = 'S') → |c.decimal_degrees| ≤ 90)
        ∧ ((hem = 'E' ∨ hem = 'W') → |c.decimal_degrees| ≤ 180) := by
  have hdisj : ¬ ((hem = 'N' ∨ hem = 'S') ∧ (hem = 'E' ∨ hem = 'W')) := by
    rintro ⟨h1 | h1, h2 | h2⟩ <;> rw [h1] at h2 <;> exact absurd h2 (by decide)
  unfold mkCoordinate
  by_cases hNS : hem = 'N' ∨ hem = 'S'
  · rw [if_pos hNS]
    by_cases hr : (90 : ℚ) < |dd|
    · rw [if_pos hr]
      constructor
      · simp only [Option.isSome_none]
        constructor
        · intro h
          exact absurd h (by decide)
        · rintro (⟨_, hle⟩ | ⟨hEW, _⟩)
          · exact absurd hle (not_le.mpr hr)
          · exact absurd ⟨hNS, hEW⟩ hdisj
      · intro c hc
        exact absurd hc (by simp)
    · rw [if_neg hr]
      constructor
      · simp only [Option.isSome_some, true_iff]
        exact Or.inl ⟨hNS, not_lt.mp hr⟩
      · intro c hc
        rcases Option.some_inj.mp hc with rfl
        exact ⟨rfl, rfl, fun _ => not_lt.mp hr, fun hEW => absurd ⟨hNS, hEW⟩ hdisj⟩
  · rw [if_neg hNS]
    by_cases hEW : hem = 'E' ∨ hem = 'W'
    · rw [if_pos hEW]
      by_cases hr : (180 : ℚ) < |dd|
      · rw [if_pos hr]
        constructor
        · simp only [Option.isSome_none]
          constructor
          · intro h
            exact absurd h (by decide)
          · rintro (⟨hNS', _⟩ | ⟨_, hle⟩)
            · exact absurd hNS' hNS
            · exact absurd hle (not_le.mpr hr)
        · intro c hc
          exact absurd hc (by simp)
      · rw [if_neg hr]
        constructor
        · simp only [Option.isSome_some, true_iff]
          exact Or.inr ⟨hEW, not_lt.mp hr⟩
        · intro c hc
          rcases Option.some_inj.mp hc with rfl
          exact ⟨rfl, rfl, fun hNS' => absurd hNS' hNS, fun _ => not_lt.mp hr⟩
    · rw [if_neg hEW]
      constructor
      · simp only [Option.isSome_none]
        constructor
        · intro h
          exact absurd h (by decide)
        · rintro (⟨hNS', _⟩ | ⟨hEW', _⟩)
          · exact absurd hNS' hNS
          · exact absurd hEW' hEW
      · intro c hc
        exact absurd hc (by simp)

/-- C9 (counterexample): `Coordinate(-48.0, 'N')` constructs successfully
— `_validate` checks `abs(decimal_degrees)` — although the claim says any
negative `decimal_degrees` fails with a range error. -/
theorem C9_counterexample :
    mkCoordinate (-48) 'N' = some ⟨-48, 'N'⟩ ∧ (-48 : ℚ) < 0 := by
  constructor
  · unfold mkCoordinate
    rw [if_pos (Or.inl rfl), if_neg (by norm_num)]
  · norm_num
